import Mathlib

/-!
Verification development for the VCF viewer (`vcf_view.py`).

The parsing and filtering core of the viewer is shallowly embedded below:
Python strings are modelled through their character lists (`List Char`),
Python `float` values by `ℚ` (the QUAL values occurring are decimal
literals), Python `int` by `ℤ`, and the variant dictionaries by the
`Record` structure.  Fallible operations return `Option`.
-/

namespace VcfView

/-- Characters stripped by Python's `str.strip()` (ASCII whitespace). -/
def isPySpace (c : Char) : Bool :=
  c = ' ' || c = '\t' || c = '\n' || c = '\x0d' || c = '\x0b' || c = '\x0c'

/-- Embedding of Python `str.strip()`: drop leading and trailing whitespace. -/
def pyStrip (l : List Char) : List Char :=
  ((l.dropWhile isPySpace).reverse.dropWhile isPySpace).reverse

/-- Embedding of Python `str.split(sep)` for a one-character separator:
splits at every occurrence of `sep`; the empty string yields `[[]]`. -/
def pySplit (sep : Char) : List Char → List (List Char)
  | [] => [[]]
  | c :: cs =>
    let r := pySplit sep cs
    if c = sep then [] :: r
    else
      match r with
      | [] => [[c]]
      | h :: t => (c :: h) :: t

/-- Embedding of Python `sep.join(parts)` for a one-character separator,
on character lists. -/
def joinChar (sep : Char) : List (List Char) → List Char
  | [] => []
  | [p] => p
  | p :: q :: ps => p ++ sep :: joinChar sep (q :: ps)

/-- Embedding of Python `sep.join(parts)` for a one-character separator,
on strings. -/
def pyJoin (sep : Char) (parts : List String) : String :=
  List.asString (joinChar sep (parts.map String.data))

/-- Embedding of Python `str.lower()` on the ASCII inputs handled here. -/
def pyLower (l : List Char) : List Char := l.map Char.toLower

/-- Embedding of Python's substring test `needle in haystack`
(`containsSub haystack needle`). -/
def containsSub : List Char → List Char → Bool
  | l, p =>
    if List.isPrefixOf p l then true
    else
      match l with
      | [] => false
      | _ :: t => containsSub t p

/-- Accumulator for reading a run of decimal digits. -/
def natOfDigitsAux : List Char → Nat → Nat
  | [], acc => acc
  | c :: cs, acc => natOfDigitsAux cs (acc * 10 + (c.toNat - 48))

/-- Numeric value of a list of decimal digit characters. -/
def natOfDigits (l : List Char) : Nat := natOfDigitsAux l 0

/-- True when every character is a decimal digit. -/
def allDigits (l : List Char) : Bool := l.all Char.isDigit

/-- Embedding of Python `int(s)` on the decimal inputs relevant here:
optional surrounding whitespace, an optional sign, then a nonempty run of
digits; anything else raises, modelled as `none`. -/
def parseIntL (l : List Char) : Option Int :=
  match pyStrip l with
  | '-' :: ds =>
    if ds ≠ [] && allDigits ds then some (-(natOfDigits ds : Int)) else none
  | '+' :: ds =>
    if ds ≠ [] && allDigits ds then some (natOfDigits ds : Int) else none
  | ds =>
    if ds ≠ [] && allDigits ds then some (natOfDigits ds : Int) else none

/-- Unsigned decimal literal: digits with an optional dot, at least one
digit overall (`"12"`, `"12.5"`, `".5"`, `"5."`); the value
`intpart + fracpart / 10 ^ fraclen` is built with `mkRat` over the common
denominator. -/
def parseUFloat (l : List Char) : Option ℚ :=
  match pySplit '.' l with
  | [a] =>
    if a ≠ [] && allDigits a then some (natOfDigits a : ℚ) else none
  | [a, b] =>
    if (a ≠ [] || b ≠ []) && allDigits a && allDigits b then
      some (mkRat (natOfDigits a * 10 ^ b.length + natOfDigits b) (10 ^ b.length))
    else none
  | _ => none

/-- Embedding of Python `float(s)` on the decimal literals relevant here:
optional surrounding whitespace, an optional sign, then an unsigned
decimal literal; anything else raises, modelled as `none`. -/
def parseFloatL (l : List Char) : Option ℚ :=
  match pyStrip l with
  | '-' :: r => (parseUFloat r).map (fun q => -q)
  | '+' :: r => parseUFloat r
  | r => parseUFloat r

/-- Embedding of Python `str(pos)` for the integer POS field. -/
def posStr (p : Int) : List Char := (Int.repr p).data

/-- One parsed variant: the dictionary appended to `self.all_variants` by
both parse paths.  `id` and `qual` are `Option`s because the structured
parse path stores Python `None` for absent values (the native path always
stores a string / a float). -/
structure Record where
  chrom : String
  pos : Int
  id : Option String
  ref : String
  alt : String
  qual : Option ℚ
  filter : String
  info : String
  raw_info : String
deriving DecidableEq

/-- Embedding of Python `str(v)` on the `id` field, whose value is either
a string or `None` (`str(None) = "None"`). -/
def strOfOptId : Option String → String
  | some s => s
  | none => "None"

/-- Splitting a data line into columns: `line.strip().split('\t')`. -/
def splitCols (line : String) : List String :=
  ((pySplit '\t' (pyStrip line.data)).map fun l => List.asString l)

/-- Result of `parse_native`'s treatment of a single line: skipped
(header or fewer than 8 columns), a record, or an uncaught `ValueError`
from `int(cols[1])` that aborts the parse. -/
inductive LineResult where
  | skip
  | bad
  | ok (r : Record)
deriving DecidableEq

/-- The qual computation of `parse_native`:
`try: qual = float(cols[5]) if cols[5] != '.' else 0.0  except: qual = 0.0`. -/
def nativeQual (c5 : String) : ℚ :=
  if c5 = "." then 0 else (parseFloatL c5.data).getD 0

/-- What `parse_native`'s loop body does with one line: skip `#` headers
and short rows, abort on an unparsable POS, otherwise build the variant
dictionary from the 8 leading columns. -/
def parseLine (line : String) : LineResult :=
  if line.data.head? = some '#' then .skip
  else
    let cols := splitCols line
    if cols.length < 8 then .skip
    else
      match parseIntL (cols.getD 1 "").data with
      | none => .bad
      | some p =>
        .ok { chrom := cols.getD 0 ""
              pos := p
              id := some (cols.getD 2 "")
              ref := cols.getD 3 ""
              alt := cols.getD 4 ""
              qual := some (nativeQual (cols.getD 5 ""))
              filter := cols.getD 6 ""
              info := cols.getD 7 ""
              raw_info := line }

/-- Embedding of `MainWindow.parse_native` over the decoded lines of the
stream: the records appended to `self.all_variants`, paired with a flag
recording whether an exception aborted the loop (records appended before
the abort remain; later lines are not processed). -/
def parse_native : List String → List Record × Bool
  | [] => ([], false)
  | l :: ls =>
    match parseLine l with
    | .skip => parse_native ls
    | .bad => ([], true)
    | .ok r => ((r :: (parse_native ls).1), (parse_native ls).2)

/-- The search disjunction of `MainWindow.apply_filters`: the lowered
query occurs in the lowered chrom, in `str(pos)`, in the lowered
`str(id)`, or in the lowered info. -/
def search_hit (search_text : List Char) (v : Record) : Bool :=
  containsSub (pyLower v.chrom.data) search_text ||
  containsSub (posStr v.pos) search_text ||
  containsSub (pyLower (strOfOptId v.id).data) search_text ||
  containsSub (pyLower v.info.data) search_text

/-- The per-record predicate of `MainWindow.apply_filters` (the two
`continue` tests). -/
def keepRecord (search_text : List Char) (show_pass : Bool) (v : Record) : Bool :=
  if show_pass && v.filter ≠ "PASS" then false
  else if search_text ≠ [] && !search_hit search_text v then false
  else true

/-- Embedding of the list comprehension core of `MainWindow.apply_filters`:
lower the query once, then keep the records passing both tests, in order. -/
def apply_filters (query : String) (show_pass : Bool) (records : List Record) :
    List Record :=
  let search_text := pyLower query.data
  records.filter (keepRecord search_text show_pass)

/-- Python truthiness of the stored `id` value (`None` and `""` are falsy). -/
def idTruthy : Option String → Bool
  | none => false
  | some s => s ≠ ""

/-- Python truthiness of the stored `qual` value (`None` and `0.0` are falsy). -/
def qualTruthy : Option ℚ → Bool
  | none => false
  | some q => q ≠ 0

/-- Embedding of Python `round(q, 2)` (ties to even), scaled by 100:
the integer closest to `100 * q`. -/
def round2 (q : ℚ) : Int :=
  let f : Int := ⌊q * 100⌋
  let r : ℚ := q * 100 - (f : ℚ)
  if r > 1 / 2 then f + 1
  else if r < 1 / 2 then f
  else if f % 2 = 0 then f else f + 1

/-- Embedding of Python `str(round(q, 2))`: sign, integer part, a dot,
then one or two fractional digits (Python prints a float's shortest
decimal form, so `1.0` not `1.00` and `1.25` not `1.2`). -/
def ratRound2Str (q : ℚ) : String :=
  let n := round2 q
  let m := n.natAbs
  let ip := m / 100
  let fr := m % 100
  let fracs :=
    if fr % 10 = 0 then [Nat.digitChar (fr / 10)]
    else [Nat.digitChar (fr / 10), Nat.digitChar (fr % 10)]
  List.asString ((if n < 0 then ['-'] else []) ++ Nat.toDigits 10 ip ++ '.' :: fracs)

/-- Column 2 of `VcfTableModel.data` (DisplayRole):
`row_data['id'] if row_data['id'] else "."`. -/
def cellId (v : Record) : String :=
  if idTruthy v.id then strOfOptId v.id else "."

/-- Column 5 of `VcfTableModel.data` (DisplayRole):
`str(round(row_data['qual'], 2)) if row_data['qual'] else "."`. -/
def cellQual (v : Record) : String :=
  if qualTruthy v.qual then ratRound2Str (v.qual.getD 0) else "."

/-! ### The structured-library (pysam) parse path -/

/-- An INFO value as handled by the `isinstance` chain of
`parse_with_pysam`: a Python `bool`, a list/tuple of already-rendered
element strings, or a scalar whose `str()` form is recorded. -/
inductive InfoVal where
  | flagVal (b : Bool)
  | listVal (vs : List String)
  | scalarVal (s : String)
deriving DecidableEq

/-- The per-record accessors of the structured variant-file library that
`parse_with_pysam` consumes: `rec.chrom`, `rec.pos`, `rec.id`, `rec.ref`,
`rec.alts`, `rec.qual`, `rec.filter.keys()`, `rec.info.items()` and
`str(rec)`. -/
structure PysamRec where
  chrom : String
  pos : Int
  id : Option String
  ref : String
  alts : Option (List String)
  qual : Option ℚ
  filterKeys : List String
  infoItems : List (String × InfoVal)
  rawStr : String
deriving DecidableEq

/-- `"PASS" if not flt or "PASS" in flt else ";".join(flt)`. -/
def pysamFltStr (flt : List String) : String :=
  if flt = [] || flt.contains "PASS" then "PASS"
  else pyJoin ';' flt

/-- `",".join([str(a) for a in rec.alts]) if rec.alts else "."`
(an absent or empty alt tuple is falsy). -/
def pysamAltStr (alts : Option (List String)) : String :=
  match alts with
  | none => "."
  | some [] => "."
  | some (a :: as_) => pyJoin ',' (a :: as_)

/-- One entry of `info_parts`: bare key for a true flag, `k=v1,...,vn`
for a sequence, `k=str(v)` otherwise (a `False` flag falls through to the
scalar branch as `k=False`). -/
def pysamInfoPart : String × InfoVal → String
  | (k, .flagVal true) => k
  | (k, .flagVal false) => k ++ "=False"
  | (k, .listVal vs) => k ++ "=" ++ pyJoin ',' vs
  | (k, .scalarVal s) => k ++ "=" ++ s

/-- `";".join(info_parts)`. -/
def pysamInfoStr (items : List (String × InfoVal)) : String :=
  pyJoin ';' (items.map pysamInfoPart)

/-- The dictionary appended by one iteration of `parse_with_pysam`. -/
def recordOfPysam (p : PysamRec) : Record :=
  { chrom := p.chrom
    pos := p.pos
    id := p.id
    ref := p.ref
    alt := pysamAltStr p.alts
    qual := p.qual
    filter := pysamFltStr p.filterKeys
    info := pysamInfoStr p.infoItems
    raw_info := p.rawStr }

/-- Embedding of `MainWindow.parse_with_pysam` over the records the
library yields for the file. -/
def parse_with_pysam (recs : List PysamRec) : List Record :=
  recs.map recordOfPysam

/-- Modelled from the spec: the structured variant-file library's ID
accessor for an ID column (the library is an external collaborator, not
part of this repository; a `"."` ID surfaces as `None`). -/
def pysamIdOfCol (c : String) : Option String :=
  if c = "." then none else some c

/-- Modelled from the spec: the library's alt tuple for an ALT column. -/
def pysamAltsOfCol (c : String) : Option (List String) :=
  if c = "." then none
  else some ((pySplit ',' c.data).map List.asString)

/-- Modelled from the spec: the library's filter-key list for a FILTER
column. -/
def pysamFltKeysOfCol (c : String) : List String :=
  if c = "." then []
  else (pySplit ';' c.data).map List.asString

/-- Modelled from the spec: one INFO entry, `key=value` or a bare flag
key. -/
def pysamInfoItemOf (item : List Char) : String × InfoVal :=
  match pySplit '=' item with
  | [k] => (List.asString k, InfoVal.flagVal true)
  | k :: rest =>
    (List.asString k, InfoVal.scalarVal (List.asString (joinChar '=' rest)))
  | [] => ("", InfoVal.flagVal true)

/-- Modelled from the spec: the library's INFO items for an INFO column. -/
def pysamInfoItemsOfCol (c : String) : List (String × InfoVal) :=
  if c = "." then []
  else (pySplit ';' c.data).map pysamInfoItemOf

/-- Modelled from the spec: the library's qual for a QUAL column
(`"."` surfaces as `None`). -/
def pysamQualOfCol (c : String) : Option (Option ℚ) :=
  if c = "." then some none
  else (parseFloatL c.data).map some

/-- Modelled from the spec: the structured library's accessors for one
8-column data line; `none` when the line is not a record the library
accepts. -/
def pysamRecOfCols (cols : List String) (raw : String) : Option PysamRec :=
  if cols.length < 8 then none
  else
    match parseIntL (cols.getD 1 "").data, pysamQualOfCol (cols.getD 5 "") with
    | some p, some q =>
      some
        { chrom := cols.getD 0 ""
          pos := p
          id := pysamIdOfCol (cols.getD 2 "")
          ref := cols.getD 3 ""
          alts := pysamAltsOfCol (cols.getD 4 "")
          qual := q
          filterKeys := pysamFltKeysOfCol (cols.getD 6 "")
          infoItems := pysamInfoItemsOfCol (cols.getD 7 "")
          rawStr := raw }
    | _, _ => none

/-- Modelled from the spec: the structured library reading the same
decoded lines the native parser sees — header lines are skipped, each
data line yields its accessor record, and a line the library rejects
fails the whole load. -/
def pysamOfLines : List String → Option (List PysamRec)
  | [] => some []
  | l :: ls =>
    if l.data.head? = some '#' then pysamOfLines ls
    else do
      let p ← pysamRecOfCols (splitCols l) l
      let rest ← pysamOfLines ls
      pure (p :: rest)

/-- Modelled from the spec: the whole structured-library parse path
applied to the decoded lines. -/
def pysamParse (lines : List String) : Option (List Record) :=
  (pysamOfLines lines).map parse_with_pysam

/-! ### Window state and `load_vcf` -/

/-- The mutable fields of `MainWindow` that the load/filter flow touches
(`self.model._data` always mirrors `filtered_variants` via `set_data`). -/
structure AppState where
  all_variants : List Record
  filtered_variants : List Record
  status : String
deriving DecidableEq

/-- Embedding of `MainWindow.apply_filters` at the state level:
recompute `filtered_variants` from `all_variants` and the UI inputs. -/
def apply_filters_st (query : String) (show_pass : Bool) (st : AppState) :
    AppState :=
  { st with filtered_variants := apply_filters query show_pass st.all_variants }

/-- Embedding of `MainWindow.load_vcf` after a file has been chosen, for
the native-parser configuration: `input` is the result of opening the
stream (`none` when the open/decompression fails before any line is
read).  `all_variants` is cleared before the `try` block; an exception —
a failed open or an aborted parse — is caught and only sets the error
status, so the records appended before an abort remain and
`filtered_variants` keeps its previous value. -/
def load_vcf (query : String) (show_pass : Bool) (st : AppState)
    (input : Option (List String)) : AppState :=
  let st1 : AppState := { st with all_variants := [] }
  match input with
  | none => { st1 with status := "Error loading file" }
  | some lines =>
    let pr := parse_native lines
    let st2 : AppState := { st1 with all_variants := pr.1 }
    if pr.2 then { st2 with status := "Error loading file" }
    else { apply_filters_st query show_pass st2 with status := "Loaded" }

/-! ### Supporting lemmas -/

theorem containsSub_iff (p : List Char) :
    ∀ l : List Char, containsSub l p = true ↔ p <:+: l := by
  intro l
  induction l with
  | nil =>
    rw [containsSub]
    simp
  | cons a t ih =>
    rw [containsSub]
    by_cases h : List.isPrefixOf p (a :: t)
    · simp only [h, if_true, true_iff]
      exact (List.isPrefixOf_iff_prefix.mp h).isInfix
    · rw [if_neg h, ih, List.infix_cons_iff]
      constructor
      · exact Or.inr
      · rintro (hp | hi)
        · exact absurd (List.isPrefixOf_iff_prefix.mpr hp) h
        · exact hi

theorem pyLower_infixMono {p l : List Char} (h : p <:+: l) :
    pyLower p <:+: pyLower l :=
  List.IsInfix.map Char.toLower h

theorem str_eq_empty_iff (s : String) : s = "" ↔ s.data = [] := by
  constructor
  · intro h; rw [h]
  · intro h; cases s; simp_all

theorem string_data_append (a b : String) : (a ++ b).data = a.data ++ b.data := by
  cases a; cases b; rfl

theorem digitChar_toLower (m : Nat) :
    (Nat.digitChar m).toLower = Nat.digitChar m :=
  match m with
  | 0 => by decide
  | 1 => by decide
  | 2 => by decide
  | 3 => by decide
  | 4 => by decide
  | 5 => by decide
  | 6 => by decide
  | 7 => by decide
  | 8 => by decide
  | 9 => by decide
  | 10 => by decide
  | 11 => by decide
  | 12 => by decide
  | 13 => by decide
  | 14 => by decide
  | 15 => by decide
  | _ + 16 => rfl

theorem toDigitsCore_toLower :
    ∀ (fuel n : Nat) (ds : List Char), (∀ c ∈ ds, c.toLower = c) →
      ∀ c ∈ Nat.toDigitsCore 10 fuel n ds, c.toLower = c := by
  intro fuel
  induction fuel with
  | zero =>
    intro n ds h c hc
    rw [Nat.toDigitsCore] at hc
    exact h c hc
  | succ f ih =>
    intro n ds h c hc
    rw [Nat.toDigitsCore] at hc
    have hcons : ∀ c' ∈ Nat.digitChar (n % 10) :: ds, c'.toLower = c' := by
      intro c' hc'
      rcases List.mem_cons.mp hc' with h1 | h2
      · rw [h1]; exact digitChar_toLower _
      · exact h c' h2
    split at hc
    · exact hcons c hc
    · exact ih _ _ hcons c hc

theorem natToDigits_toLower (n : Nat) :
    ∀ c ∈ Nat.toDigits 10 n, c.toLower = c := by
  intro c hc
  rw [Nat.toDigits] at hc
  exact toDigitsCore_toLower _ _ _ (by intro c' h'; cases h') c hc

theorem posStr_toLower (p : Int) : ∀ c ∈ posStr p, c.toLower = c := by
  intro c hc
  cases p with
  | ofNat m =>
    have : posStr (Int.ofNat m) = Nat.toDigits 10 m := rfl
    rw [this] at hc
    exact natToDigits_toLower m c hc
  | negSucc m =>
    have : posStr (Int.negSucc m) = '-' :: Nat.toDigits 10 (m + 1) := by
      show (("-" ++ Nat.repr (m + 1)).data) = _
      rw [string_data_append]
      rfl
    rw [this] at hc
    rcases List.mem_cons.mp hc with h1 | h2
    · rw [h1]; decide
    · exact natToDigits_toLower _ c h2

theorem posStr_pyLower (p : Int) : pyLower (posStr p) = posStr p := by
  unfold pyLower
  rw [List.map_congr_left (fun c hc => posStr_toLower p c hc)]
  simp

theorem pySplit_ne_nil (sep : Char) (l : List Char) : pySplit sep l ≠ [] := by
  induction l with
  | nil => simp [pySplit]
  | cons c cs ih =>
    rw [pySplit]
    by_cases h : c = sep
    · simp [h]
    · simp only [h, if_false]
      cases hr : pySplit sep cs with
      | nil => exact absurd hr ih
      | cons hd tl => simp

theorem joinChar_pySplit (sep : Char) (l : List Char) :
    joinChar sep (pySplit sep l) = l := by
  induction l with
  | nil => rfl
  | cons c cs ih =>
    rw [pySplit]
    by_cases h : c = sep
    · rw [if_pos h]
      cases hr : pySplit sep cs with
      | nil => exact absurd hr (pySplit_ne_nil sep cs)
      | cons hd tl =>
        rw [hr] at ih
        simp only [joinChar, List.nil_append]
        rw [ih, h]
    · rw [if_neg h]
      cases hr : pySplit sep cs with
      | nil => exact absurd hr (pySplit_ne_nil sep cs)
      | cons hd tl =>
        rw [hr] at ih
        cases tl with
        | nil =>
          simp only [joinChar] at ih ⊢
          rw [ih]
        | cons t ts =>
          simp only [joinChar, List.cons_append] at ih ⊢
          rw [ih]

theorem asString_data (l : List Char) : (List.asString l).data = l := rfl

theorem pysamAlt_roundtrip (c : String) : pysamAltStr (pysamAltsOfCol c) = c := by
  unfold pysamAltsOfCol
  by_cases h : c = "."
  · simp [pysamAltStr, h]
  · rw [if_neg h]
    cases hr : pySplit ',' c.data with
    | nil => exact absurd hr (pySplit_ne_nil ',' c.data)
    | cons hd tl =>
      have hred : pysamAltStr (some ((hd :: tl).map List.asString)) =
          pyJoin ',' ((hd :: tl).map List.asString) := rfl
      rw [hred]
      unfold pyJoin
      have hdata : ((hd :: tl).map List.asString).map String.data = hd :: tl := by
        rw [List.map_map]
        have hcomp : String.data ∘ List.asString = id := by funext x; rfl
        rw [hcomp, List.map_id]
      rw [hdata, ← hr, joinChar_pySplit]
      cases c; rfl

theorem toDigitsCore_length (fuel : Nat) : ∀ (n : Nat) (ds : List Char),
    ds.length ≤ (Nat.toDigitsCore 10 fuel n ds).length := by
  induction fuel with
  | zero => intro n ds; rw [Nat.toDigitsCore]
  | succ f ih =>
    intro n ds
    rw [Nat.toDigitsCore]
    split
    · simp
    · calc ds.length ≤ (Nat.digitChar (n % 10) :: ds).length := by simp
        _ ≤ _ := ih _ _

theorem toDigits_ne_nil (n : Nat) : Nat.toDigits 10 n ≠ [] := by
  rw [Nat.toDigits, Nat.toDigitsCore]
  split
  · exact fun h => List.noConfusion h
  · intro h
    have h1 := toDigitsCore_length n (n / 10) [Nat.digitChar (n % 10)]
    rw [h] at h1
    simp at h1

theorem ratRound2Str_ne_dot (q : ℚ) : ratRound2Str q ≠ "." := by
  unfold ratRound2Str
  intro h
  have hd := congrArg String.data h
  rw [asString_data] at hd
  split at hd <;> split at hd <;>
    (have hlen := congrArg List.length hd
     simp [List.length_append] at hlen)

theorem keepRecord_iff (st : List Char) (sp : Bool) (v : Record) :
    keepRecord st sp v = true ↔
      ((sp = true → v.filter = "PASS") ∧ (st ≠ [] → search_hit st v = true)) := by
  unfold keepRecord
  cases sp <;> by_cases h2 : v.filter = "PASS" <;> by_cases h3 : st = [] <;>
    cases hs : search_hit st v <;> simp [h2, h3, hs]

theorem search_hit_iff (st : List Char) (v : Record) :
    search_hit st v = true ↔
      (st <:+: pyLower v.chrom.data ∨ st <:+: posStr v.pos ∨
       st <:+: pyLower (strOfOptId v.id).data ∨ st <:+: pyLower v.info.data) := by
  unfold search_hit
  simp only [Bool.or_eq_true, containsSub_iff]
  tauto

/-- The record used by the concrete witnesses below. -/
def sampleRec : Record :=
  { chrom := "chr1", pos := 100, id := some "rs1", ref := "A", alt := "G",
    qual := some 10, filter := "PASS", info := "DP=10", raw_info := "L" }

/-- `parse_native`'s per-line outcome viewed as an optional record. -/
def recOfLine (l : String) : Option Record :=
  match parseLine l with
  | .ok r => some r
  | _ => none

/-! ### Claims -/

/-- Claim C8: for every record list and criteria, applying the filter
twice with the same criteria yields the same result as applying it once. -/
theorem c8_filter_idempotent (query : String) (show_pass : Bool)
    (records : List Record) :
    apply_filters query show_pass (apply_filters query show_pass records) =
      apply_filters query show_pass records := by
  unfold apply_filters
  rw [List.filter_filter]
  simp

/-- Claim C6: the native parser emits records in input line order — with
no abort it yields exactly the per-line records of the input in order, and
in general its output is the per-line records of a prefix of the input (no
deduplication, no sorting) — and the visible set produced by filtering is
a subsequence of the record list in that original order. -/
theorem c6_order_preservation :
    (∀ lines : List String, (parse_native lines).2 = false →
      (parse_native lines).1 = lines.filterMap recOfLine) ∧
    (∀ lines : List String, ∃ k,
      (parse_native lines).1 = (lines.take k).filterMap recOfLine) ∧
    (∀ (query : String) (show_pass : Bool) (records : List Record),
      (apply_filters query show_pass records).Sublist records) := by
  refine ⟨?_, ?_, ?_⟩
  · intro lines
    induction lines with
    | nil => intro _; rfl
    | cons l ls ih =>
      cases hl : parseLine l with
      | skip =>
        have hp : parse_native (l :: ls) = parse_native ls := by
          rw [parse_native, hl]
        intro h
        rw [hp] at h ⊢
        rw [List.filterMap_cons_none (by rw [recOfLine, hl]), ih h]
      | bad =>
        have hp : parse_native (l :: ls) = ([], true) := by
          rw [parse_native, hl]
        intro h
        rw [hp] at h
        exact Bool.noConfusion h
      | ok r =>
        have hp : parse_native (l :: ls) =
            (r :: (parse_native ls).1, (parse_native ls).2) := by
          rw [parse_native, hl]
        intro h
        rw [hp] at h ⊢
        rw [List.filterMap_cons_some (by rw [recOfLine, hl]), ih h]
  · intro lines
    induction lines with
    | nil => exact ⟨0, rfl⟩
    | cons l ls ih =>
      obtain ⟨k, hk⟩ := ih
      cases hl : parseLine l with
      | skip =>
        refine ⟨k + 1, ?_⟩
        rw [parse_native, hl, List.take_succ_cons,
          List.filterMap_cons_none (by rw [recOfLine, hl])]
        exact hk
      | bad =>
        refine ⟨0, ?_⟩
        rw [parse_native, hl]
        rfl
      | ok r =>
        refine ⟨k + 1, ?_⟩
        rw [parse_native, hl, List.take_succ_cons,
          List.filterMap_cons_some (by rw [recOfLine, hl])]
        exact congrArg (r :: ·) hk
  · intro query show_pass records
    exact List.filter_sublist records

/-- Witness for C6 at a concrete input: a one-line file parses to exactly
its per-line record, and filtering a concrete list yields a subsequence. -/
theorem c6_order_preservation_witness :
    (parse_native ["chr1\t100\trs1\tA\tG\t50.0\tPASS\tDP=10"]).1 =
      ["chr1\t100\trs1\tA\tG\t50.0\tPASS\tDP=10"].filterMap recOfLine ∧
    (apply_filters "" false [sampleRec]).Sublist [sampleRec] :=
  ⟨c6_order_preservation.1 _ (by decide), c6_order_preservation.2.2 "" false _⟩

/-- Claim C7: a data line splitting on tabs into fewer than 8 fields is
silently skipped and yields no record; a file with one valid 8-column
line and one 3-column line yields exactly the one record of the valid
line. -/
theorem c7_short_row_skipped :
    (∀ line : String, (splitCols line).length < 8 → parseLine line = .skip) ∧
    parse_native ["chr1\t100\trs1\tA\tG\t50.0\tPASS\tDP=10", "chr1\t5\tZZ"] =
      ([{ chrom := "chr1", pos := 100, id := some "rs1", ref := "A",
          alt := "G", qual := some 50, filter := "PASS", info := "DP=10",
          raw_info := "chr1\t100\trs1\tA\tG\t50.0\tPASS\tDP=10" }], false) := by
  constructor
  · intro line h
    unfold parseLine
    by_cases hh : line.data.head? = some '#'
    · rw [if_pos hh]
    · rw [if_neg hh]
      simp only [if_pos h]
  · decide

/-- Witness for C7 at a concrete input: a 3-column line is skipped. -/
theorem c7_short_row_skipped_witness : parseLine "chr1\t5\tZZ" = .skip :=
  c7_short_row_skipped.1 "chr1\t5\tZZ" (by decide)

/-- Claim C5: the filter includes a record iff (1) when passOnly is set,
its filter string equals `"PASS"` exactly, and (2) when the query is
non-empty, the query case-insensitively occurs as a substring of the
chrom, of the decimal string form of pos, of the string form of id, or of
the info — ref, alt and filter are never searched. -/
theorem c5_filter_predicate (query : String) (show_pass : Bool)
    (records : List Record) (r : Record) :
    r ∈ apply_filters query show_pass records ↔
      r ∈ records ∧
      (show_pass = true → r.filter = "PASS") ∧
      (query ≠ "" →
        (pyLower query.data <:+: pyLower r.chrom.data ∨
         pyLower query.data <:+: pyLower (posStr r.pos) ∨
         pyLower query.data <:+: pyLower (strOfOptId r.id).data ∨
         pyLower query.data <:+: pyLower r.info.data)) := by
  have hq : (pyLower query.data ≠ []) ↔ query ≠ "" := by
    rw [not_iff_not]
    unfold pyLower
    rw [List.map_eq_nil_iff]
    exact (str_eq_empty_iff query).symm
  unfold apply_filters
  rw [List.mem_filter, keepRecord_iff]
  simp only [search_hit_iff, posStr_pyLower, hq]

/-- Witness for C5 at a concrete input: the case-insensitive query
`"CHR1"` matches a record with chrom `"chr1"`. -/
theorem c5_filter_predicate_witness :
    sampleRec ∈ apply_filters "CHR1" false [sampleRec] :=
  (c5_filter_predicate "CHR1" false [sampleRec] sampleRec).mpr (by decide)

theorem search_hit_anti {st st' : List Char} (v : Record) (h : st <:+: st')
    (hhit : search_hit st' v = true) : search_hit st v = true := by
  rw [search_hit_iff] at hhit ⊢
  rcases hhit with h1 | h2 | h3 | h4
  · exact Or.inl (h.trans h1)
  · exact Or.inr (Or.inl (h.trans h2))
  · exact Or.inr (Or.inr (Or.inl (h.trans h3)))
  · exact Or.inr (Or.inr (Or.inr (h.trans h4)))

/-- Claim C9: with the query held fixed, enabling passOnly never
increases the visible set size; and replacing a non-empty query with a
superstring of it never increases the visible set size. -/
theorem c9_filter_monotone :
    (∀ (query : String) (records : List Record),
      (apply_filters query true records).length ≤
        (apply_filters query false records).length) ∧
    (∀ (q q' : String) (show_pass : Bool) (records : List Record),
      q ≠ "" → q.data <:+: q'.data →
      (apply_filters q' show_pass records).length ≤
        (apply_filters q show_pass records).length) := by
  constructor
  · intro query records
    apply List.Sublist.length_le
    apply List.monotone_filter_right
    intro v hv
    rw [keepRecord_iff] at hv ⊢
    exact ⟨fun h => absurd h Bool.false_ne_true, hv.2⟩
  · intro q q' sp records hq hinf
    apply List.Sublist.length_le
    apply List.monotone_filter_right
    intro v hv
    rw [keepRecord_iff] at hv ⊢
    refine ⟨hv.1, fun _ => ?_⟩
    refine search_hit_anti v (pyLower_infixMono hinf) (hv.2 ?_)
    intro hnil
    have hq' : q'.data = [] := List.map_eq_nil_iff.mp hnil
    rw [hq'] at hinf
    have hq0 : q.data = [] := by
      rcases hinf with ⟨s, t, hst⟩
      have := List.append_eq_nil.mp ((List.append_eq_nil.mp hst).1)
      exact this.2
    exact hq ((str_eq_empty_iff q).mpr hq0)

/-- Witness for C9 at concrete inputs: widening the query from `"d"` to
`"dp"` does not grow the visible set. -/
theorem c9_filter_monotone_witness :
    (apply_filters "dp" false [sampleRec]).length ≤
      (apply_filters "d" false [sampleRec]).length :=
  c9_filter_monotone.2 "d" "dp" false [sampleRec] (by decide) ⟨[], ['p'], rfl⟩

/-- A concrete structured-library record with an absent ID, for the C10
witness. -/
def pysamSampleNoId : PysamRec :=
  { chrom := "chr1", pos := 100, id := none, ref := "A", alts := some ["G"],
    qual := some 10, filterKeys := ["PASS"], infoItems := [("DP", .scalarVal "10")],
    rawStr := "raw" }

/-- Claim C10: under the structured-library parse path an absent ID is
stored as `None`; the search predicate tests the query against
`str(id).lower() = "none"`, so any query that is a substring of `"none"`
matches every record whose ID is absent. -/
theorem c10_pysam_none_id (p : PysamRec) (q : String)
    (hid : p.id = none) (hq : q.data <:+: "none".data) :
    (recordOfPysam p).id = none ∧
    search_hit (pyLower q.data) (recordOfPysam p) = true := by
  have hidr : (recordOfPysam p).id = none := by
    unfold recordOfPysam
    exact hid
  refine ⟨hidr, ?_⟩
  rw [search_hit_iff]
  refine Or.inr (Or.inr (Or.inl ?_))
  rw [hidr]
  have hlow : pyLower (strOfOptId none).data = "none".data := by decide
  rw [hlow]
  have hmapped := pyLower_infixMono hq
  rw [show pyLower ("none".data) = "none".data from by decide] at hmapped
  exact hmapped

/-- Witness for C10 at a concrete input: the query `"non"` matches a
record parsed with an absent ID. -/
theorem c10_pysam_none_id_witness :
    (recordOfPysam pysamSampleNoId).id = none ∧
    search_hit (pyLower "non".data) (recordOfPysam pysamSampleNoId) = true :=
  c10_pysam_none_id pysamSampleNoId "non" rfl ⟨[], ['e'], rfl⟩

/-- Counterexample to C1: a QUAL of `"."` and a QUAL of `"0.0"` are both
stored as 0.0 by the native parser — no distinguishable absent sentinel —
and the display cell renders the parsed 0.0 as `"."`, not as a number. -/
theorem c1_counterexample :
    (parse_native ["chr1\t100\t.\tA\tG\t.\tPASS\tDP=10"]).1.map Record.qual =
      [some 0] ∧
    (parse_native ["chr1\t100\t.\tA\tG\t0.0\tPASS\tDP=10"]).1.map Record.qual =
      [some 0] ∧
    (parse_native ["chr1\t100\t.\tA\tG\t0.0\tPASS\tDP=10"]).1.map cellQual =
      ["."] := by
  decide

/-- Claim C1 (amended): the native parser stores 0.0 for a `"."` or
unparsable QUAL — indistinguishable from a legitimately parsed 0.0 — and
the display cell renders `"."` exactly when the stored qual is falsy
(`None` or 0.0), so a parsed 0.0 also renders as `"."`; any nonzero qual
renders as the rounded number, never as `"."`. -/
theorem c1_amended_qual_conflated :
    (∀ s : String, (s = "." ∨ parseFloatL s.data = none) → nativeQual s = 0) ∧
    (∀ v : Record, v.qual = some 0 → cellQual v = ".") ∧
    (∀ v : Record, v.qual = none → cellQual v = ".") ∧
    (∀ (v : Record) (q : ℚ), v.qual = some q → q ≠ 0 → cellQual v ≠ ".") := by
  refine ⟨?_, ?_, ?_, ?_⟩
  · intro s h
    unfold nativeQual
    rcases h with h | h
    · rw [if_pos h]
    · by_cases hd : s = "."
      · rw [if_pos hd]
      · rw [if_neg hd, h]
        rfl
  · intro v h
    unfold cellQual
    rw [h]
    simp [qualTruthy]
  · intro v h
    unfold cellQual
    rw [h]
    simp [qualTruthy]
  · intro v q h hq
    unfold cellQual
    rw [h]
    have ht : qualTruthy (some q) = true := by simp [qualTruthy, hq]
    rw [ht, if_pos rfl]
    exact ratRound2Str_ne_dot q

/-- Witness for C1 (amended) at concrete inputs. -/
theorem c1_amended_qual_conflated_witness :
    nativeQual "xyz" = 0 ∧
    cellQual { sampleRec with qual := some 0 } = "." ∧
    cellQual { sampleRec with qual := none } = "." ∧
    cellQual sampleRec ≠ "." :=
  ⟨c1_amended_qual_conflated.1 "xyz" (Or.inr (by decide)),
   c1_amended_qual_conflated.2.1 _ rfl,
   c1_amended_qual_conflated.2.2.1 _ rfl,
   c1_amended_qual_conflated.2.2.2 sampleRec 10 rfl (by decide)⟩

/-- Counterexample to C2: with a record already loaded, a failed open
leaves `all_variants` empty — the prior record collection is cleared, not
left untouched. -/
theorem c2_counterexample :
    (load_vcf "" false
      { all_variants := [sampleRec], filtered_variants := [sampleRec],
        status := "Ready" } none).all_variants = [] ∧
    [sampleRec] ≠ ([] : List Record) := by
  constructor
  · rfl
  · decide

/-- Claim C2 (amended): on a failed open no records from the attempt are
exposed and the error is reported, but the previously loaded record
collection is not left untouched: `all_variants` is reset to empty before
the attempt; only the displayed filtered list keeps its stale value. -/
theorem c2_amended_open_failure (query : String) (show_pass : Bool)
    (st : AppState) :
    (load_vcf query show_pass st none).all_variants = [] ∧
    (load_vcf query show_pass st none).filtered_variants =
      st.filtered_variants ∧
    (load_vcf query show_pass st none).status = "Error loading file" :=
  ⟨rfl, rfl, rfl⟩

/-- Counterexample to C3: a line with a non-numeric POS aborts the whole
parse — the following well-formed line yields no record at all. -/
theorem c3_counterexample :
    parse_native ["chr1\tXYZ\t.\tA\tG\t.\tPASS\tDP=1",
      "chr2\t100\trs7\tA\tG\t9.5\tPASS\tDP=2"] = ([], true) := by
  decide

/-- Claim C3 (amended): an unparsable QUAL is tolerated per row (the
record is kept with qual 0.0), but an unparsable POS is not skipped: the
uncaught exception aborts the parse, keeping only the records of earlier
lines and producing none for the well-formed lines after it. -/
theorem c3_amended_pos_aborts :
    (∀ (line : String) (p : Int), line.data.head? ≠ some '#' →
      ¬ (splitCols line).length < 8 →
      parseIntL ((splitCols line).getD 1 "").data = some p →
      parseFloatL ((splitCols line).getD 5 "").data = none →
      ∃ r, parseLine line = .ok r ∧ r.qual = some 0) ∧
    (∀ (ls₁ ls₂ : List String) (l : String), parseLine l = .bad →
      parse_native (ls₁ ++ l :: ls₂) = ((parse_native ls₁).1, true)) := by
  constructor
  · intro line p hhash h8 hpos hfl
    unfold parseLine
    rw [if_neg hhash]
    simp only [if_neg h8, hpos]
    refine ⟨_, rfl, ?_⟩
    simp only
    unfold nativeQual
    by_cases hd : (splitCols line).getD 5 "" = "."
    · rw [if_pos hd]
    · rw [if_neg hd, hfl]
      rfl
  · intro ls₁ ls₂ l hbad
    induction ls₁ with
    | nil =>
      simp only [List.nil_append, parse_native, hbad]
    | cons x xs ih =>
      simp only [List.cons_append, parse_native]
      cases hx : parseLine x <;> simp [hx, ih]

/-- Witness for C3 (amended) at concrete inputs: a line with QUAL `"qq"`
still yields a record with qual 0.0, and a bad-POS line placed between
two good lines aborts the parse after the first. -/
theorem c3_amended_pos_aborts_witness :
    (∃ r, parseLine "chr1\t100\t.\tA\tG\tqq\tPASS\tDP=1" = .ok r ∧
      r.qual = some 0) ∧
    parse_native (["chr1\t7\trs1\tA\tG\t1.5\tPASS\tDP=3"] ++
        "chr1\tXYZ\t.\tA\tG\t.\tPASS\tDP=1" ::
        ["chr2\t100\trs7\tA\tG\t9.5\tPASS\tDP=2"]) =
      ((parse_native ["chr1\t7\trs1\tA\tG\t1.5\tPASS\tDP=3"]).1, true) :=
  ⟨c3_amended_pos_aborts.1 "chr1\t100\t.\tA\tG\tqq\tPASS\tDP=1" 100
      (by decide) (by decide) (by decide) (by decide),
   c3_amended_pos_aborts.2 _ _ _ (by decide)⟩

/-- Counterexample to C4: on the line `chr1 100 . A G . . .` the two
parse paths disagree on id (`"."` vs `None`), qual (0.0 vs `None`),
filter (`"."` vs `"PASS"`) and info (`"."` vs `""`). -/
theorem c4_counterexample :
    (parse_native ["chr1\t100\t.\tA\tG\t.\t.\t."]).1.map Record.id =
      [some "."] ∧
    (pysamParse ["chr1\t100\t.\tA\tG\t.\t.\t."]).map (List.map Record.id) =
      some [none] ∧
    (parse_native ["chr1\t100\t.\tA\tG\t.\t.\t."]).1.map Record.qual =
      [some 0] ∧
    (pysamParse ["chr1\t100\t.\tA\tG\t.\t.\t."]).map (List.map Record.qual) =
      some [none] ∧
    (parse_native ["chr1\t100\t.\tA\tG\t.\t.\t."]).1.map Record.filter =
      ["."] ∧
    (pysamParse ["chr1\t100\t.\tA\tG\t.\t.\t."]).map (List.map Record.filter) =
      some ["PASS"] ∧
    (parse_native ["chr1\t100\t.\tA\tG\t.\t.\t."]).1.map Record.info =
      ["."] ∧
    (pysamParse ["chr1\t100\t.\tA\tG\t.\t.\t."]).map (List.map Record.info) =
      some [""] := by
  decide

/-- Claim C4 (amended): the two parse paths agree on chrom, pos, ref and
alt for every line both accept, and on id, qual, filter and info exactly
when those columns carry present values in canonical form (id and qual
not `"."`, the filter column fixed by the library's PASS normalization,
the info column fixed by re-serializing its items); on absent values the
paths differ as the counterexample shows. -/
theorem c4_amended_path_agreement (line : String) (p : Int) (q : ℚ)
    (hhash : line.data.head? ≠ some '#')
    (h8 : ¬ (splitCols line).length < 8)
    (hpos : parseIntL ((splitCols line).getD 1 "").data = some p)
    (hid : (splitCols line).getD 2 "" ≠ ".")
    (hq5 : (splitCols line).getD 5 "" ≠ ".")
    (hqp : parseFloatL ((splitCols line).getD 5 "").data = some q)
    (hflt : pysamFltStr (pysamFltKeysOfCol ((splitCols line).getD 6 "")) =
      (splitCols line).getD 6 "")
    (hinfo : pysamInfoStr (pysamInfoItemsOfCol ((splitCols line).getD 7 "")) =
      (splitCols line).getD 7 "") :
    ∃ (rN : Record) (pr : PysamRec),
      parseLine line = .ok rN ∧
      pysamRecOfCols (splitCols line) line = some pr ∧
      rN.chrom = (recordOfPysam pr).chrom ∧
      rN.pos = (recordOfPysam pr).pos ∧
      rN.id = (recordOfPysam pr).id ∧
      rN.ref = (recordOfPysam pr).ref ∧
      rN.alt = (recordOfPysam pr).alt ∧
      rN.qual = (recordOfPysam pr).qual ∧
      rN.filter = (recordOfPysam pr).filter ∧
      rN.info = (recordOfPysam pr).info := by
  have hnq : nativeQual ((splitCols line).getD 5 "") = q := by
    unfold nativeQual
    rw [if_neg hq5, hqp]
    rfl
  have hpq : pysamQualOfCol ((splitCols line).getD 5 "") = some (some q) := by
    unfold pysamQualOfCol
    rw [if_neg hq5, hqp]
    rfl
  refine ⟨{ chrom := (splitCols line).getD 0 "", pos := p,
            id := some ((splitCols line).getD 2 ""),
            ref := (splitCols line).getD 3 "",
            alt := (splitCols line).getD 4 "",
            qual := some (nativeQual ((splitCols line).getD 5 "")),
            filter := (splitCols line).getD 6 "",
            info := (splitCols line).getD 7 "",
            raw_info := line },
          { chrom := (splitCols line).getD 0 "", pos := p,
            id := pysamIdOfCol ((splitCols line).getD 2 ""),
            ref := (splitCols line).getD 3 "",
            alts := pysamAltsOfCol ((splitCols line).getD 4 ""),
            qual := some q,
            filterKeys := pysamFltKeysOfCol ((splitCols line).getD 6 ""),
            infoItems := pysamInfoItemsOfCol ((splitCols line).getD 7 ""),
            rawStr := line },
          ?_, ?_, rfl, rfl, ?_, rfl, ?_, ?_, ?_, ?_⟩
  · unfold parseLine
    rw [if_neg hhash]
    simp only [if_neg h8, hpos]
  · unfold pysamRecOfCols
    rw [if_neg h8]
    simp only [hpos, hpq]
  · exact (show pysamIdOfCol ((splitCols line).getD 2 "") =
      some ((splitCols line).getD 2 "") by
        unfold pysamIdOfCol; rw [if_neg hid]).symm
  · exact (pysamAlt_roundtrip ((splitCols line).getD 4 "")).symm
  · rw [hnq]
    rfl
  · exact hflt.symm
  · exact hinfo.symm

/-- Witness for C4 (amended) at a concrete line carrying present values
in every column. -/
theorem c4_amended_path_agreement_witness :
    ∃ (rN : Record) (pr : PysamRec),
      parseLine "chr1\t100\trs1\tA\tG,T\t50.5\tq10\tDP=10;DB" = .ok rN ∧
      pysamRecOfCols (splitCols "chr1\t100\trs1\tA\tG,T\t50.5\tq10\tDP=10;DB")
        "chr1\t100\trs1\tA\tG,T\t50.5\tq10\tDP=10;DB" = some pr ∧
      rN.chrom = (recordOfPysam pr).chrom ∧
      rN.pos = (recordOfPysam pr).pos ∧
      rN.id = (recordOfPysam pr).id ∧
      rN.ref = (recordOfPysam pr).ref ∧
      rN.alt = (recordOfPysam pr).alt ∧
      rN.qual = (recordOfPysam pr).qual ∧
      rN.filter = (recordOfPysam pr).filter ∧
      rN.info = (recordOfPysam pr).info :=
  c4_amended_path_agreement "chr1\t100\trs1\tA\tG,T\t50.5\tq10\tDP=10;DB"
    100 (mkRat 101 2) (by decide) (by decide) (by decide) (by decide)
    (by decide) (by decide) (by decide) (by decide)

end VcfView
